import Mathlib

/-!
Verification of the GitLab CI adapter for the Claude Code CLI.

The development shallowly embeds the TypeScript sources:
  src/gitlab/validate-env-gitlab.ts  (environment validation)
  src/gitlab/cli.ts                  (output plumbing; only the conclusion values matter here)
  src/unnamed/part_000               (run-claude-gitlab.ts: prepareRunConfig, runClaudeGitLab)
  src/test/setup-claude-code-settings.test.ts (tests of the settings merger)

JavaScript strings are modelled as Lean `String`; `undefined`-able values as
`Option String`; thrown exceptions as `Except String`; JSON objects as
association lists.  Process events (close / error / timeout) are modelled as an
explicit event list consumed by the single-resolution promise loop.
-/

namespace ClaudeGitLab

/-! ## JavaScript string primitives -/

/-- Characters removed by JavaScript `String.prototype.trim` (the common ones). -/
def jsIsWhitespace (c : Char) : Bool :=
  c == ' ' || c == '\t' || c == '\n' || c == '\r' || c == '\x0b' || c == '\x0c'

/-- JavaScript truthiness of an optional string: `undefined` and `""` are falsy. -/
def jsTruthy : Option String → Bool
  | none => false
  | some s => !(s == "")

/-- JavaScript `String.prototype.trim`. -/
def jsTrim (s : String) : String :=
  ⟨List.reverse (List.dropWhile jsIsWhitespace
    (List.reverse (List.dropWhile jsIsWhitespace s.toList)))⟩

/-- `s.trim() === ""`: the string is empty or whitespace-only. -/
def isBlankStr (s : String) : Bool := s.toList.all jsIsWhitespace

/-- Split a character list at newline characters, keeping empty segments,
exactly like JavaScript `text.split("\n")`. -/
def splitOnNL : List Char → List (List Char)
  | [] => [[]]
  | c :: rest =>
    if c = '\n' then [] :: splitOnNL rest
    else
      match splitOnNL rest with
      | h :: t => (c :: h) :: t
      | [] => [[c]]

/-- JavaScript `text.split("\n")` on strings. -/
def strLines (s : String) : List String := (splitOnNL s.toList).map (fun cs => ⟨cs⟩)

/-- JavaScript `text.endsWith("\n")`. -/
def endsWithNL (s : String) : Bool := s.toList.getLast? == some '\n'

/-- JavaScript `Array.prototype.join("\n")`. -/
def joinWithNL : List String → String
  | [] => ""
  | [s] => s
  | s :: rest => s ++ "\n" ++ joinWithNL rest

/-- Concatenation of a list of strings (`join("")`). -/
def concatAll : List String → String
  | [] => ""
  | s :: rest => s ++ concatAll rest

/-- Digit accumulation for `parseInt`. -/
def digitsToNat : List Char → Nat → Nat
  | [], acc => acc
  | c :: cs, acc => digitsToNat cs (acc * 10 + (c.toNat - '0'.toNat))

/-- Core of `parseInt(s, 10)`: read a maximal leading run of decimal digits. -/
def parseIntCore (cs : List Char) (sign : Int) : Option Int :=
  let ds := cs.takeWhile Char.isDigit
  if ds.isEmpty then none else some (sign * (digitsToNat ds 0 : Int))

/-- Sign handling of `parseInt(s, 10)`. -/
def parseIntList : List Char → Option Int
  | '-' :: rest => parseIntCore rest (-1)
  | '+' :: rest => parseIntCore rest 1
  | cs => parseIntCore cs 1

/-- JavaScript `parseInt(s, 10)`; `none` models `NaN`.  Leading whitespace is
skipped and trailing garbage is ignored, as in JavaScript. -/
def jsParseInt (s : String) : Option Int :=
  parseIntList (s.toList.dropWhile jsIsWhitespace)

/-! ## Association lists (JavaScript objects with insertion order) -/

/-- First value stored under key `k`. -/
def lookupKey (k : String) : List (String × α) → Option α
  | [] => none
  | (k', v) :: rest => if k' = k then some v else lookupKey k rest

/-- JavaScript property assignment `o[k] = v`: overwrite in place if the key is
present, append otherwise. -/
def setKey (l : List (String × α)) (k : String) (v : α) : List (String × α) :=
  if (lookupKey k l).isSome then
    l.map (fun p => if p.1 = k then (k, v) else p)
  else l ++ [(k, v)]

/-- JavaScript object spread `\x7b...base, ...new\x7d`: keys of `base` keep their
position (values overridden by `new` where shared); keys of `new` that are
absent from `base` are appended in order. -/
def mergeObj (base new : List (String × α)) : List (String × α) :=
  base.map (fun p => (p.1, (lookupKey p.1 new).getD p.2))
    ++ new.filter (fun p => (lookupKey p.1 base).isNone)

/-! ## JSON values -/

/-- A JSON value, enough to state properties about settings documents. -/
inductive JVal where
  | jnull
  | jbool (b : Bool)
  | jnum (n : Int)
  | jstr (s : String)
  | jarr (xs : List JVal)
  | jobj (fields : List (String × JVal))

/-- A top-level JSON object: ordered association list of fields. -/
abbrev JObj := List (String × JVal)

/-! ## Settings merger

The implementation file (`setupClaudeCodeSettings`) is not part of the sources;
only its test suite is.  The definitions below are therefore modelled from the
spec (section 4.2) and checked against the behaviour the tests demand. -/

/-- The boolean field the merger unconditionally forces to `true`. -/
def forcedKey : String := "enableAllProjectMcpServers"

/-- Modelled from the spec: input resolution of the settings merger
(`setupClaudeCodeSettings` is missing from the sources; only
src/test/setup-claude-code-settings.test.ts is present).  Absent or blank input
means no new settings; otherwise the string is parsed as JSON, and on parse
failure treated as a file path whose contents are read and parsed; both an
unreadable path and invalid file contents are errors.  JSON parsing and file
reading are abstract parameters. -/
def resolveSettingsInput (parseJson : String → Option JObj)
    (readFileStr : String → Option String) (raw : Option String) :
    Except String (Option JObj) :=
  match raw with
  | none => Except.ok none
  | some s =>
    if isBlankStr s then Except.ok none
    else
      match parseJson s with
      | some obj => Except.ok (some obj)
      | none =>
        match readFileStr s with
        | none => Except.error ("Failed to read settings from: " ++ s)
        | some contents =>
          match parseJson contents with
          | some obj => Except.ok (some obj)
          | none => Except.error ("Invalid JSON in settings file: " ++ s)

/-- Modelled from the spec: one merge step of the settings merger.  The new
input is shallow-merged over the existing document (new top-level keys win,
nested objects replaced wholesale) and then the forced field is set to `true`. -/
def applySettings (existing : JObj) (input : JObj) : JObj :=
  setKey (mergeObj existing input) forcedKey (JVal.jbool true)

/-- Modelled from the spec: the document written to disk, given the existing
document and the resolved optional input object. -/
def writeSettings (existing : JObj) (resolved : Option JObj) : JObj :=
  applySettings existing (resolved.getD [])

/-! ### Association list lemmas -/

theorem lookupKey_append (k : String) (l₁ l₂ : List (String × α)) :
    lookupKey k (l₁ ++ l₂) =
      match lookupKey k l₁ with
      | some v => some v
      | none => lookupKey k l₂ := by
  induction l₁ with
  | nil => simp [lookupKey]
  | cons p rest ih =>
    obtain ⟨k', v⟩ := p
    by_cases h : k' = k <;> simp [lookupKey, h, ih]

theorem lookupKey_map_override (b : List (String × α)) (f : String → α → α) (x : String) :
    lookupKey x (b.map (fun p => (p.1, f p.1 p.2))) =
      (lookupKey x b).map (fun v => f x v) := by
  induction b with
  | nil => simp [lookupKey]
  | cons p rest ih =>
    obtain ⟨k', v⟩ := p
    by_cases h : k' = x
    · subst h; simp [lookupKey, ih]
    · simp [lookupKey, h, ih]

theorem lookupKey_filter_none (b n : List (String × α)) (x : String) :
    lookupKey x (n.filter (fun p => (lookupKey p.1 b).isNone)) =
      if (lookupKey x b).isNone then lookupKey x n else none := by
  induction n with
  | nil => simp [lookupKey]
  | cons p rest ih =>
    obtain ⟨k', v⟩ := p
    by_cases hk : k' = x
    · subst hk
      by_cases hb : (lookupKey k' b).isNone
      · simp [List.filter, lookupKey, hb, ih]
      · simp only [List.filter, hb]
        simp only [Bool.false_eq_true, if_false] at *
        rw [ih]
        simp [hb]
    · by_cases hb : (lookupKey k' b).isNone
      · simp [List.filter, lookupKey, hb, hk, ih]
      · simp only [List.filter, hb]
        simp only [Bool.false_eq_true, if_false] at *
        rw [ih]
        split <;> simp [lookupKey, hk]

theorem lookupKey_mergeObj (b n : List (String × α)) (x : String) :
    lookupKey x (mergeObj b n) =
      match lookupKey x n with
      | some w => some w
      | none => lookupKey x b := by
  unfold mergeObj
  rw [lookupKey_append]
  rw [lookupKey_map_override b (fun k v => (lookupKey k n).getD v) x]
  rw [lookupKey_filter_none]
  cases hb : lookupKey x b <;> cases hn : lookupKey x n <;> simp [hb, hn]

theorem setKey_map_form (l : List (String × α)) (k : String) (v : α) :
    (l.map fun p => if p.1 = k then (k, v) else p)
      = l.map (fun p => (p.1, if p.1 = k then v else p.2)) := by
  apply List.map_congr_left
  intro p _
  by_cases hp : p.1 = k <;> simp [hp]

theorem lookupKey_map_setForm (l : List (String × α)) (k x : String) (v : α) :
    lookupKey x (l.map (fun p => (p.1, if p.1 = k then v else p.2))) =
      (lookupKey x l).map (fun w => if x = k then v else w) := by
  induction l with
  | nil => simp [lookupKey]
  | cons p rest ih =>
    obtain ⟨k', w⟩ := p
    by_cases h : k' = x
    · subst h; simp [lookupKey, ih]
    · simp [lookupKey, h, ih]

theorem lookupKey_setKey_self (l : List (String × α)) (k : String) (v : α) :
    lookupKey k (setKey l k v) = some v := by
  cases hlk : lookupKey k l with
  | none =>
    simp only [setKey, hlk, Option.isSome_none, Bool.false_eq_true, if_false]
    rw [lookupKey_append]
    simp [hlk, lookupKey]
  | some w =>
    simp only [setKey, hlk, Option.isSome_some, if_true]
    rw [setKey_map_form, lookupKey_map_setForm]
    simp [hlk]

theorem lookupKey_setKey_other (l : List (String × α)) (k x : String) (v : α)
    (hx : x ≠ k) : lookupKey x (setKey l k v) = lookupKey x l := by
  cases hlk : lookupKey k l with
  | none =>
    simp only [setKey, hlk, Option.isSome_none, Bool.false_eq_true, if_false]
    rw [lookupKey_append]
    cases hl : lookupKey x l <;> simp [lookupKey, Ne.symm hx]
  | some w =>
    simp only [setKey, hlk, Option.isSome_some, if_true]
    rw [setKey_map_form, lookupKey_map_setForm]
    simp [hx]

/-- Behaviour of one settings merge step on lookups. -/
theorem lookupKey_applySettings (d i : JObj) (x : String) :
    lookupKey x (applySettings d i) =
      if x = forcedKey then some (JVal.jbool true)
      else
        match lookupKey x i with
        | some w => some w
        | none => lookupKey x d := by
  unfold applySettings
  by_cases hx : x = forcedKey
  · subst hx; simp [lookupKey_setKey_self]
  · rw [lookupKey_setKey_other _ _ _ _ hx, lookupKey_mergeObj]
    simp only [hx, if_false]
    cases lookupKey x i <;> rfl

/-! ### Claim C1 -/

/-- Claim C1: for every settings input accepted by the merger (valid JSON
string, readable JSON file, blank, or absent input), the written settings
document has `enableAllProjectMcpServers = true`, even when the input
explicitly sets that field to `false`. -/
theorem claim1_forced_field_true (parseJson : String → Option JObj)
    (readFileStr : String → Option String) (raw : Option String)
    (existing : JObj) (resolved : Option JObj)
    (h : resolveSettingsInput parseJson readFileStr raw = Except.ok resolved) :
    lookupKey forcedKey (writeSettings existing resolved) = some (JVal.jbool true) := by
  unfold writeSettings applySettings
  exact lookupKey_setKey_self _ _ _

/-- A concrete JSON parser stub for witnesses: the literal input string maps to
an object that explicitly sets the forced field to `false`. -/
def parseStubFalse : String → Option JObj :=
  fun s =>
    if s == "input-settings" then
      some [(forcedKey, JVal.jbool false), ("model", JVal.jstr "test-model")]
    else none

/-- Witness for claim C1: an input that explicitly sets the forced field to
`false` still produces a document with the field `true`. -/
theorem claim1_witness :
    lookupKey forcedKey
      (writeSettings []
        (some [(forcedKey, JVal.jbool false), ("model", JVal.jstr "test-model")]))
      = some (JVal.jbool true) :=
  claim1_forced_field_true parseStubFalse (fun _ => none) (some "input-settings")
    [] (some [(forcedKey, JVal.jbool false), ("model", JVal.jstr "test-model")])
    (by rfl)

/-! ### Claim C9 -/

/-- Claim C9: the settings merger is idempotent.  Applying the same (resolved)
settings input twice in sequence yields the same final document as applying it
once: every top-level key has the same value and the forced field is still
`true`. -/
theorem claim9_idempotent (parseJson : String → Option JObj)
    (readFileStr : String → Option String) (raw : Option String)
    (existing : JObj) (resolved : Option JObj)
    (h : resolveSettingsInput parseJson readFileStr raw = Except.ok resolved) :
    (∀ x, lookupKey x (writeSettings (writeSettings existing resolved) resolved)
        = lookupKey x (writeSettings existing resolved))
    ∧ lookupKey forcedKey (writeSettings (writeSettings existing resolved) resolved)
        = some (JVal.jbool true) := by
  constructor
  · intro x
    unfold writeSettings
    rw [lookupKey_applySettings, lookupKey_applySettings]
    by_cases hx : x = forcedKey
    · simp [hx]
    · simp only [hx, if_false]
      cases hi : lookupKey x (resolved.getD [])
      · rfl
      · rfl
  · unfold writeSettings applySettings
    exact lookupKey_setKey_self _ _ _

/-- Witness for claim C9: the twice-merged document agrees with the
once-merged one on a concrete key, and the forced field is `true`, for a
concrete existing document and input. -/
theorem claim9_witness :
    lookupKey "model"
        (writeSettings
          (writeSettings [("existingKey", JVal.jstr "existingValue")]
            (some [(forcedKey, JVal.jbool false), ("model", JVal.jstr "test-model")]))
          (some [(forcedKey, JVal.jbool false), ("model", JVal.jstr "test-model")]))
      = lookupKey "model"
        (writeSettings [("existingKey", JVal.jstr "existingValue")]
          (some [(forcedKey, JVal.jbool false), ("model", JVal.jstr "test-model")]))
    ∧ lookupKey forcedKey
        (writeSettings
          (writeSettings [("existingKey", JVal.jstr "existingValue")]
            (some [(forcedKey, JVal.jbool false), ("model", JVal.jstr "test-model")]))
          (some [(forcedKey, JVal.jbool false), ("model", JVal.jstr "test-model")]))
      = some (JVal.jbool true) := by
  have hmain := claim9_idempotent parseStubFalse (fun _ => none) (some "input-settings")
    [("existingKey", JVal.jstr "existingValue")]
    (some [(forcedKey, JVal.jbool false), ("model", JVal.jstr "test-model")]) (by rfl)
  exact ⟨hmain.1 "model", hmain.2⟩

/-! ## The completion promise of `runClaudeGitLab`

`runClaudeGitLab` awaits a promise that is resolved by whichever of three
events fires first: the `close` event of the assistant process (carrying a
possibly-null exit code), its `error` event, or the watchdog timeout.  Each
handler is guarded by the shared `resolved` flag.  The model runs the handlers
over an arbitrary sequence of events. -/

/-- An event that can resolve the completion promise. -/
inductive ClaudeEvent where
  | closed (code : Option Int)
  | errored
  | timedOut

/-- The value each handler passes to `resolve`:
timeout resolves `124`, `close` resolves `code || 0`, `error` resolves `1`. -/
def resolveValue : ClaudeEvent → Int
  | ClaudeEvent.timedOut => 124
  | ClaudeEvent.closed code =>
    match code with
    | none => 0
    | some c => if c = 0 then 0 else c
  | ClaudeEvent.errored => 1

/-- State of the completion promise: the `resolved` flag shared by the three
handlers, the resolved value, and how many times `resolve` was called. -/
structure PromiseState where
  resolved : Bool
  result : Option Int
  resolveCount : Nat

/-- One event handler invocation: every handler first checks `resolved`. -/
def promiseStep (s : PromiseState) (e : ClaudeEvent) : PromiseState :=
  if s.resolved then s
  else ⟨true, some (resolveValue e), s.resolveCount + 1⟩

/-- Run the handlers over the events in arrival order. -/
def runCompletion (events : List ClaudeEvent) : PromiseState :=
  events.foldl promiseStep ⟨false, none, 0⟩

theorem foldl_promiseStep_resolved (s : PromiseState) (hs : s.resolved = true)
    (l : List ClaudeEvent) : l.foldl promiseStep s = s := by
  induction l with
  | nil => rfl
  | cons e rest ih => simp [promiseStep, hs, ih]

theorem runCompletion_cons (e : ClaudeEvent) (rest : List ClaudeEvent) :
    runCompletion (e :: rest) = ⟨true, some (resolveValue e), 1⟩ := by
  unfold runCompletion
  simp only [List.foldl_cons]
  rw [show promiseStep ⟨false, none, 0⟩ e = ⟨true, some (resolveValue e), 1⟩ from rfl]
  exact foldl_promiseStep_resolved _ rfl rest

/-! ### Claims C2, C3, C10 -/

/-- Claim C2: if the watchdog timeout fires before the assistant process closes
or errors, the run resolves to exit code 124, no matter what the assistant does
afterwards; a run that completes normally (close event first, non-null code)
resolves to the assistant's own exit code. -/
theorem claim2_exit_codes :
    (∀ rest : List ClaudeEvent,
      (runCompletion (ClaudeEvent.timedOut :: rest)).result = some 124)
    ∧ (∀ (c : Int) (rest : List ClaudeEvent),
      (runCompletion (ClaudeEvent.closed (some c) :: rest)).result = some c) := by
  constructor
  · intro rest
    rw [runCompletion_cons]
    rfl
  · intro c rest
    rw [runCompletion_cons]
    simp only [resolveValue]
    by_cases hc : c = 0 <;> simp [hc]

/-- Claim C3: whichever of the three events occurs first determines the run's
exit code, and the promise is resolved exactly once; all later events are
ignored. -/
theorem claim3_at_most_once (e : ClaudeEvent) (rest : List ClaudeEvent) :
    (runCompletion (e :: rest)).result = some (resolveValue e)
    ∧ (runCompletion (e :: rest)).resolveCount = 1 := by
  rw [runCompletion_cons]
  exact ⟨rfl, rfl⟩

/-- The success/failure conclusion derived from the run's exit code. -/
def conclusionFor (exitCode : Int) : String :=
  if exitCode = 0 then "success" else "failure"

/-- Claim C10: a close event with a null exit code (signal termination outside
the watchdog path) arriving before the timeout resolves the run to exit code 0,
with conclusion "success", exactly as a normal close with code 0 would. -/
theorem claim10_null_close (rest : List ClaudeEvent) :
    (runCompletion (ClaudeEvent.closed none :: rest)).result = some 0
    ∧ (runCompletion (ClaudeEvent.closed none :: rest)).result
        = (runCompletion [ClaudeEvent.closed (some 0)]).result
    ∧ Option.map conclusionFor (runCompletion (ClaudeEvent.closed none :: rest)).result
        = some "success" := by
  rw [runCompletion_cons]
  refine ⟨rfl, ?_, rfl⟩
  rw [runCompletion_cons]
  rfl

/-! ## Environment validation (src/gitlab/validate-env-gitlab.ts)

The process environment is modelled as an explicit record of the variables the
validator reads. -/

/-- The environment variables read by `validateEnvironmentVariablesGitLab`. -/
structure GitLabEnv where
  CLAUDE_CODE_USE_BEDROCK : Option String
  CLAUDE_USE_BEDROCK : Option String
  CLAUDE_CODE_USE_VERTEX : Option String
  CLAUDE_USE_VERTEX : Option String
  ANTHROPIC_API_KEY : Option String
  CLAUDE_CODE_OAUTH_TOKEN : Option String
  AWS_REGION : Option String
  AWS_ACCESS_KEY_ID : Option String
  AWS_SECRET_ACCESS_KEY : Option String
  CI_JOB_JWT_V2 : Option String
  CI_JOB_JWT : Option String
  ANTHROPIC_VERTEX_PROJECT_ID : Option String
  CLOUD_ML_REGION : Option String
  GOOGLE_APPLICATION_CREDENTIALS : Option String
  GITLAB_CI_MODE : Option String
  CI_PROJECT_DIR : Option String

/-- An environment with every variable unset, used as a base for test cases. -/
def envAllNone : GitLabEnv :=
  ⟨none, none, none, none, none, none, none, none,
   none, none, none, none, none, none, none, none⟩

/-- `CLAUDE_CODE_USE_BEDROCK === "1" || CLAUDE_USE_BEDROCK === "true"`. -/
def useBedrock (env : GitLabEnv) : Bool :=
  env.CLAUDE_CODE_USE_BEDROCK == some "1" || env.CLAUDE_USE_BEDROCK == some "true"

/-- `CLAUDE_CODE_USE_VERTEX === "1" || CLAUDE_USE_VERTEX === "true"`. -/
def useVertex (env : GitLabEnv) : Bool :=
  env.CLAUDE_CODE_USE_VERTEX == some "1" || env.CLAUDE_USE_VERTEX == some "true"

/-- `CI_JOB_JWT_V2 || CI_JOB_JWT` is truthy. -/
def gitlabOidc (env : GitLabEnv) : Bool :=
  jsTruthy env.CI_JOB_JWT_V2 || jsTruthy env.CI_JOB_JWT

def msgBothProviders : String :=
  "Cannot use both Bedrock and Vertex AI simultaneously. Please set only one provider (CLAUDE_USE_BEDROCK or CLAUDE_USE_VERTEX)."

def msgDirectApi : String :=
  "Either ANTHROPIC_API_KEY or CLAUDE_CODE_OAUTH_TOKEN is required when using direct Anthropic API."

def msgAwsRegion : String :=
  "AWS_REGION is required when using AWS Bedrock (CLAUDE_USE_BEDROCK=true)."

def msgAwsKey : String :=
  "AWS_ACCESS_KEY_ID is required when using AWS Bedrock (CLAUDE_USE_BEDROCK=true)."

def msgAwsSecret : String :=
  "AWS_SECRET_ACCESS_KEY is required when using AWS Bedrock (CLAUDE_USE_BEDROCK=true)."

def msgVertexProject : String :=
  "ANTHROPIC_VERTEX_PROJECT_ID is required when using Google Vertex AI (CLAUDE_USE_VERTEX=true)."

def msgVertexRegion : String :=
  "CLOUD_ML_REGION is required when using Google Vertex AI (CLAUDE_USE_VERTEX=true)."

def msgProjectDir : String :=
  "CI_PROJECT_DIR is required in GitLab CI environment."

def noteAwsOidc : String := "Using GitLab OIDC token for AWS authentication"

def noteGcpOidc : String := "Using GitLab OIDC token for GCP authentication"

/-- Errors pushed in the Bedrock branch, in source order. -/
def bedrockErrors (env : GitLabEnv) : List String :=
  (if !jsTruthy env.AWS_REGION then [msgAwsRegion] else [])
  ++ (if !jsTruthy env.AWS_ACCESS_KEY_ID then [msgAwsKey] else [])
  ++ (if !jsTruthy env.AWS_SECRET_ACCESS_KEY then [msgAwsSecret] else [])

/-- Errors pushed in the Vertex branch, in source order. -/
def vertexErrors (env : GitLabEnv) : List String :=
  (if !jsTruthy env.ANTHROPIC_VERTEX_PROJECT_ID then [msgVertexProject] else [])
  ++ (if !jsTruthy env.CLOUD_ML_REGION then [msgVertexRegion] else [])

/-- Errors pushed by the provider `if`/`else if` chain. -/
def providerErrors (env : GitLabEnv) : List String :=
  if !useBedrock env && !useVertex env then
    if !jsTruthy env.ANTHROPIC_API_KEY && !jsTruthy env.CLAUDE_CODE_OAUTH_TOKEN then
      [msgDirectApi]
    else []
  else if useBedrock env then bedrockErrors env
  else if useVertex env then vertexErrors env
  else []

/-- The OIDC-availability notes logged by the provider branches (the only
console output relevant to the spec; other informational logs are omitted). -/
def providerNotes (env : GitLabEnv) : List String :=
  if !useBedrock env && !useVertex env then []
  else if useBedrock env then
    if !jsTruthy env.AWS_ACCESS_KEY_ID && gitlabOidc env then [noteAwsOidc] else []
  else if useVertex env then
    if !jsTruthy env.GOOGLE_APPLICATION_CREDENTIALS && gitlabOidc env then [noteGcpOidc]
    else []
  else []

/-- All errors collected by one validator run, in source order. -/
def collectErrors (env : GitLabEnv) : List String :=
  (if useBedrock env && useVertex env then [msgBothProviders] else [])
  ++ providerErrors env
  ++ (if jsTruthy env.GITLAB_CI_MODE && !jsTruthy env.CI_PROJECT_DIR then [msgProjectDir]
      else [])

/-- The aggregated failure message: a header line followed by one `  - `-prefixed
line per collected error, joined with newlines. -/
def validationErrorMessage (errors : List String) : String :=
  "GitLab CI environment variable validation failed:" ++ "\n"
    ++ joinWithNL (errors.map (fun e => "  - " ++ e))

/-- `validateEnvironmentVariablesGitLab`: returns normally when no error was
collected and throws the aggregated message otherwise. -/
def validateEnvironmentVariablesGitLab (env : GitLabEnv) : Except String Unit :=
  if (collectErrors env).isEmpty then Except.ok ()
  else Except.error (validationErrorMessage (collectErrors env))

/-- Whether an `Except` result is a thrown error. -/
def isError : Except String Unit → Bool
  | Except.error _ => true
  | Except.ok _ => false

/-! ### Newline-free messages and message/line round trip -/

/-- The string contains no newline character. -/
abbrev noNLStr (s : String) : Prop := '\n' ∉ s.toList

theorem mem_if_singleton {b : Bool} {e x : String} (h : e ∈ (if b then [x] else [])) :
    e = x := by
  cases b with
  | true => simpa using h
  | false => simp at h

theorem collectErrors_noNL (env : GitLabEnv) : ∀ e ∈ collectErrors env, noNLStr e := by
  intro e he
  unfold collectErrors at he
  rcases List.mem_append.1 he with he | he
  · rcases List.mem_append.1 he with he | he
    · have hx := mem_if_singleton he
      subst hx; decide
    · unfold providerErrors at he
      split at he
      · have hx := mem_if_singleton he
        subst hx; decide
      · split at he
        · unfold bedrockErrors at he
          rcases List.mem_append.1 he with he | he
          · rcases List.mem_append.1 he with he | he
            · have hx := mem_if_singleton he
              subst hx; decide
            · have hx := mem_if_singleton he
              subst hx; decide
          · have hx := mem_if_singleton he
            subst hx; decide
        · split at he
          · unfold vertexErrors at he
            rcases List.mem_append.1 he with he | he
            · have hx := mem_if_singleton he
              subst hx; decide
            · have hx := mem_if_singleton he
              subst hx; decide
          · simp at he
  · have hx := mem_if_singleton he
    subst hx; decide

theorem toList_append (a b : String) : (a ++ b).toList = a.toList ++ b.toList := rfl

theorem mk_toList (s : String) : (⟨s.toList⟩ : String) = s := rfl

theorem splitOnNL_noNL (a : List Char) (ha : '\n' ∉ a) : splitOnNL a = [a] := by
  induction a with
  | nil => rfl
  | cons c rest ih =>
    have hc : c ≠ '\n' := fun hcn => ha (hcn ▸ List.mem_cons_self c rest)
    have hrest : '\n' ∉ rest := fun hmem => ha (List.mem_cons_of_mem c hmem)
    simp only [splitOnNL, if_neg hc]
    rw [ih hrest]

theorem splitOnNL_append (a b : List Char) (ha : '\n' ∉ a) :
    splitOnNL (a ++ '\n' :: b) = a :: splitOnNL b := by
  induction a with
  | nil => simp [splitOnNL]
  | cons c rest ih =>
    have hc : c ≠ '\n' := fun hcn => ha (hcn ▸ List.mem_cons_self c rest)
    have hrest : '\n' ∉ rest := fun hmem => ha (List.mem_cons_of_mem c hmem)
    simp only [List.cons_append, splitOnNL, if_neg hc, List.append_eq]
    rw [ih hrest]

theorem strLines_cons (a b : String) (ha : noNLStr a) :
    strLines (a ++ "\n" ++ b) = a :: strLines b := by
  unfold strLines
  rw [toList_append, toList_append]
  rw [show ("\n" : String).toList = ['\n'] from rfl]
  rw [List.append_assoc]
  rw [show (['\n'] ++ b.toList) = '\n' :: b.toList from rfl]
  rw [splitOnNL_append _ _ ha]
  simp [mk_toList]

theorem strLines_noNL (a : String) (ha : noNLStr a) : strLines a = [a] := by
  unfold strLines
  rw [splitOnNL_noNL _ ha]
  simp [mk_toList]

theorem strLines_joinWithNL (ls : List String) (h : ∀ s ∈ ls, noNLStr s)
    (hne : ls ≠ []) : strLines (joinWithNL ls) = ls := by
  induction ls with
  | nil => exact absurd rfl hne
  | cons l rest ih =>
    cases rest with
    | nil =>
      exact strLines_noNL l (h l (List.mem_cons_self l []))
    | cons l' rest' =>
      rw [show joinWithNL (l :: l' :: rest') = l ++ "\n" ++ joinWithNL (l' :: rest')
        from rfl]
      rw [strLines_cons _ _ (h l (List.mem_cons_self l _))]
      rw [ih (fun s hs => h s (List.mem_cons_of_mem l hs)) (by simp)]

theorem noNLStr_append (a b : String) (ha : noNLStr a) (hb : noNLStr b) :
    noNLStr (a ++ b) := by
  unfold noNLStr at *
  rw [toList_append]
  intro hmem
  rcases List.mem_append.1 hmem with hmem | hmem
  · exact ha hmem
  · exact hb hmem

/-! ### Claim C6 -/

/-- Claim C6: for every environment, the validator either returns normally or
throws a single error whose message consists of a header line followed by one
line per detected problem; it never reports only a strict subset of the
problems. -/
theorem claim6_aggregation (env : GitLabEnv) (m : String)
    (h : validateEnvironmentVariablesGitLab env = Except.error m) :
    strLines m = "GitLab CI environment variable validation failed:"
        :: (collectErrors env).map (fun e => "  - " ++ e)
    ∧ collectErrors env ≠ [] := by
  unfold validateEnvironmentVariablesGitLab at h
  split at h
  · exact absurd h (by simp)
  · rename_i hne
    have hlist : collectErrors env ≠ [] := by
      intro hnil
      rw [hnil] at hne
      simp at hne
    have hm : m = validationErrorMessage (collectErrors env) := by
      have := h
      simp only [Except.error.injEq] at this
      exact this.symm
    subst hm
    refine ⟨?_, hlist⟩
    unfold validationErrorMessage
    rw [strLines_cons _ _ (by decide)]
    congr 1
    apply strLines_joinWithNL
    · intro s hs
      rcases List.mem_map.1 hs with ⟨e, he, hse⟩
      subst hse
      exact noNLStr_append _ _ (by decide) (collectErrors_noNL env e he)
    · intro hnil
      exact hlist (List.map_eq_nil_iff.mp hnil)

/-- Both managed providers selected and no credentials at all. -/
def bothProvidersEnv : GitLabEnv :=
  { envAllNone with CLAUDE_USE_BEDROCK := some "true", CLAUDE_USE_VERTEX := some "true" }

/-- Witness for claim C6: with both providers selected and no credentials, the
thrown message lists the provider conflict and all three missing Bedrock
variables together, one per line. -/
theorem claim6_witness :
    strLines (validationErrorMessage (collectErrors bothProvidersEnv))
      = "GitLab CI environment variable validation failed:"
        :: (collectErrors bothProvidersEnv).map (fun e => "  - " ++ e)
    ∧ collectErrors bothProvidersEnv ≠ [] :=
  claim6_aggregation bothProvidersEnv
    (validationErrorMessage (collectErrors bothProvidersEnv)) (by rfl)

/-! ### Claim C7 -/

/-- Bedrock selected, static AWS credentials absent, GitLab OIDC token present. -/
def bedrockOidcEnv : GitLabEnv :=
  { envAllNone with
      CLAUDE_USE_BEDROCK := some "true"
      AWS_REGION := some "us-east-1"
      CI_JOB_JWT_V2 := some "gitlab-jwt" }

/-- Counterexample to claim C7 as stated: with Bedrock selected, static
credentials absent and an OIDC token present, the validator notes that
token-based authentication is available but nevertheless fails (the missing
static credentials are still errors). -/
theorem claim7_counterexample :
    noteAwsOidc ∈ providerNotes bedrockOidcEnv
    ∧ isError (validateEnvironmentVariablesGitLab bedrockOidcEnv) = true := by
  constructor
  · decide
  · decide

/-- Claim C7 (amended): the fallback only spares Vertex.  When Vertex is
selected with its project and region set, no service-account file and an OIDC
token present, the validator notes GCP token authentication and returns
normally (the service-account variable is not in Vertex's required list).  When
Bedrock is selected with its static access key absent, the validator notes AWS
token authentication but still fails, because the static credentials are in
Bedrock's required list. -/
theorem claim7_amended (env : GitLabEnv) :
    (useVertex env = true → useBedrock env = false →
     jsTruthy env.ANTHROPIC_VERTEX_PROJECT_ID = true →
     jsTruthy env.CLOUD_ML_REGION = true →
     jsTruthy env.GOOGLE_APPLICATION_CREDENTIALS = false →
     gitlabOidc env = true →
     (jsTruthy env.GITLAB_CI_MODE = false ∨ jsTruthy env.CI_PROJECT_DIR = true) →
     validateEnvironmentVariablesGitLab env = Except.ok ()
       ∧ noteGcpOidc ∈ providerNotes env)
    ∧ (useBedrock env = true → jsTruthy env.AWS_ACCESS_KEY_ID = false →
     gitlabOidc env = true →
     noteAwsOidc ∈ providerNotes env
       ∧ isError (validateEnvironmentVariablesGitLab env) = true) := by
  constructor
  · intro hv hb hproj hreg hgac hoidc hmode
    have herr : collectErrors env = [] := by
      unfold collectErrors providerErrors vertexErrors
      rcases hmode with hmode | hmode <;>
        simp [hv, hb, hproj, hreg, hmode]
    constructor
    · unfold validateEnvironmentVariablesGitLab
      simp [herr]
    · unfold providerNotes
      simp [hv, hb, hgac, hoidc]
  · intro hb hkey hoidc
    constructor
    · unfold providerNotes
      simp [hb, hkey, hoidc]
    · have hmem : msgAwsKey ∈ collectErrors env := by
        unfold collectErrors providerErrors bedrockErrors
        simp [hb, hkey]
      have hne : collectErrors env ≠ [] := by
        intro hnil
        rw [hnil] at hmem
        simp at hmem
      unfold validateEnvironmentVariablesGitLab isError
      have : (collectErrors env).isEmpty = false := by
        cases hl : collectErrors env
        · exact absurd hl hne
        · rfl
      simp [this]

/-- Vertex selected with project and region, no service-account file, OIDC
token present. -/
def vertexOidcEnv : GitLabEnv :=
  { envAllNone with
      CLAUDE_USE_VERTEX := some "true"
      ANTHROPIC_VERTEX_PROJECT_ID := some "my-project"
      CLOUD_ML_REGION := some "us-central1"
      CI_JOB_JWT := some "gitlab-jwt" }

/-- Witness for claim C7 (amended), at concrete environments for both halves. -/
theorem claim7_witness :
    (validateEnvironmentVariablesGitLab vertexOidcEnv = Except.ok ()
      ∧ noteGcpOidc ∈ providerNotes vertexOidcEnv)
    ∧ (noteAwsOidc ∈ providerNotes bedrockOidcEnv
      ∧ isError (validateEnvironmentVariablesGitLab bedrockOidcEnv) = true) := by
  constructor
  · exact (claim7_amended vertexOidcEnv).1 (by decide) (by decide) (by decide)
      (by decide) (by decide) (by decide) (Or.inl (by decide))
  · exact (claim7_amended bedrockOidcEnv).2 (by decide) (by decide) (by decide)

/-! ## `prepareRunConfig` (src/unnamed/part_000)

Thrown `Error`s are modelled with `Except String`.  The source performs the
`maxTurns` and `timeoutMinutes` checks inline between argument pushes; the
checks are hoisted here as `Except`-valued helpers, preserving the order in
which errors are raised (`maxTurns` before `timeoutMinutes`) and the final
argument list. -/

/-- The options record accepted by `prepareRunConfig` / `runClaudeGitLab`.
`none` models `undefined`. -/
structure ClaudeOptions where
  allowedTools : Option String
  disallowedTools : Option String
  maxTurns : Option String
  mcpConfig : Option String
  systemPrompt : Option String
  appendSystemPrompt : Option String
  claudeEnv : Option String
  fallbackModel : Option String
  timeoutMinutes : Option String
  model : Option String

/-- Options with every field `undefined`. -/
def noOpts : ClaudeOptions :=
  ⟨none, none, none, none, none, none, none, none, none, none⟩

/-- The prepared invocation: CLI arguments, prompt path and extra env vars. -/
structure PreparedConfig where
  claudeArgs : List String
  promptPath : String
  env : List (String × String)

/-- The fixed base flags of the assistant invocation. -/
def BASE_ARGS : List String := ["-p", "--verbose", "--output-format", "stream-json"]

/-- `if (options.x) claudeArgs.push(flag, options.x)`. -/
def optArgs (flag : String) (o : Option String) : List String :=
  if jsTruthy o then [flag, o.getD ""] else []

/-- The `maxTurns` block: on a truthy option, `parseInt` it and throw when the
result is `NaN` or non-positive, otherwise push the `--max-turns` arguments. -/
def checkMaxTurns (o : Option String) : Except String (List String) :=
  if jsTruthy o then
    match jsParseInt (o.getD "") with
    | none => Except.error ("maxTurns must be a positive number, got: " ++ o.getD "")
    | some v =>
      if v ≤ 0 then
        Except.error ("maxTurns must be a positive number, got: " ++ o.getD "")
      else Except.ok ["--max-turns", o.getD ""]
  else Except.ok []

/-- The `timeoutMinutes` block: on a truthy option, `parseInt` it and throw when
the result is `NaN` or non-positive (no arguments are pushed). -/
def checkTimeoutMinutes (o : Option String) : Except String Unit :=
  if jsTruthy o then
    match jsParseInt (o.getD "") with
    | none =>
      Except.error ("timeoutMinutes must be a positive number, got: " ++ o.getD "")
    | some v =>
      if v ≤ 0 then
        Except.error ("timeoutMinutes must be a positive number, got: " ++ o.getD "")
      else Except.ok ()
  else Except.ok ()

/-- Whether a trimmed line starts with `#`. -/
def startsWithHash (s : String) : Bool :=
  match s.toList with
  | '#' :: _ => true
  | _ => false

/-- Split a character list at the first `:`; `none` models `indexOf(":") === -1`. -/
def splitAtColon : List Char → Option (List Char × List Char)
  | [] => none
  | ':' :: rest => some ([], rest)
  | c :: rest => (splitAtColon rest).map (fun p => (c :: p.1, p.2))

/-- One line of the `KEY: VALUE` custom environment block. -/
def envLineStep (acc : List (String × String)) (line : String) : List (String × String) :=
  let t := jsTrim line
  if t == "" then acc
  else if startsWithHash t then acc
  else
    match splitAtColon t.toList with
    | none => acc
    | some p =>
      let key := jsTrim ⟨p.1⟩
      let value := jsTrim ⟨p.2⟩
      if key == "" then acc else setKey acc key value

/-- `parseCustomEnvVars`: parse the line-oriented `KEY: VALUE` block. -/
def parseCustomEnvVars (claudeEnv : Option String) : List (String × String) :=
  if !jsTruthy claudeEnv || jsTrim (claudeEnv.getD "") == "" then []
  else (strLines (claudeEnv.getD "")).foldl envLineStep []

/-- `prepareRunConfig(promptPath, options)`; `gitlabCiMode` models
`process.env.GITLAB_CI_MODE`. -/
def prepareRunConfig (promptPath : String) (gitlabCiMode : Option String)
    (opts : ClaudeOptions) : Except String PreparedConfig :=
  match checkMaxTurns opts.maxTurns with
  | Except.error m => Except.error m
  | Except.ok maxTurnArgs =>
    match checkTimeoutMinutes opts.timeoutMinutes with
    | Except.error m => Except.error m
    | Except.ok _ =>
      let claudeArgs := BASE_ARGS
        ++ optArgs "--allowedTools" opts.allowedTools
        ++ optArgs "--disallowedTools" opts.disallowedTools
        ++ maxTurnArgs
        ++ optArgs "--mcp-config" opts.mcpConfig
        ++ optArgs "--system-prompt" opts.systemPrompt
        ++ optArgs "--append-system-prompt" opts.appendSystemPrompt
        ++ optArgs "--fallback-model" opts.fallbackModel
        ++ optArgs "--model" opts.model
      let customEnv := parseCustomEnvVars opts.claudeEnv
      let customEnv :=
        if jsTruthy gitlabCiMode then
          setKey customEnv "GITLAB_CI_INPUTS" (gitlabCiMode.getD "")
        else customEnv
      Except.ok ⟨claudeArgs, promptPath, customEnv⟩

/-! ## The observable action sequence of `runClaudeGitLab`

`runClaudeGitLab` first calls `prepareRunConfig` (which may throw), then
creates the temp directory, removes and recreates the named pipe, stats the
prompt file, spawns the prompt reader, the assistant and the pipe reader, and
only then computes the timeout — where a malformed `CLAUDE_TIMEOUT_MINUTES`
environment override throws.  The model records that sequence of actions up to
the completion wait; a throw truncates it. -/

/-- Observable actions of the orchestrator, in order of occurrence. -/
inductive RunAction where
  | mkdirTemp
  | unlinkPipe
  | mkfifoPipe
  | statPrompt
  | spawnCat
  | spawnClaude
  | spawnPipeReader
  | throwErr (msg : String)

/-- Which actions spawn one of the three subprocesses. -/
def isSpawn : RunAction → Bool
  | RunAction.spawnCat => true
  | RunAction.spawnClaude => true
  | RunAction.spawnPipeReader => true
  | _ => false

/-- Which actions are thrown configuration errors. -/
def isConfigThrow : RunAction → Bool
  | RunAction.throwErr _ => true
  | _ => false

/-- The timeout computation after the spawns: a truthy `timeoutMinutes` option
wins (already validated); otherwise a truthy `CLAUDE_TIMEOUT_MINUTES`
environment variable is parsed and a `NaN` or non-positive value throws. -/
def envTimeoutCheck (timeoutOpt envTimeout : Option String) : List RunAction :=
  if jsTruthy timeoutOpt then []
  else if jsTruthy envTimeout then
    match jsParseInt (envTimeout.getD "") with
    | none =>
      [RunAction.throwErr
        ("CLAUDE_TIMEOUT_MINUTES must be a positive number, got: " ++ envTimeout.getD "")]
    | some v =>
      if v ≤ 0 then
        [RunAction.throwErr
          ("CLAUDE_TIMEOUT_MINUTES must be a positive number, got: " ++ envTimeout.getD "")]
      else []
  else []

/-- The action sequence of `runClaudeGitLab` up to the completion wait. -/
def runClaudeGitLabActions (promptPath : String) (gitlabCiMode envTimeout : Option String)
    (opts : ClaudeOptions) : List RunAction :=
  match prepareRunConfig promptPath gitlabCiMode opts with
  | Except.error m => [RunAction.throwErr m]
  | Except.ok _ =>
    [RunAction.mkdirTemp, RunAction.unlinkPipe, RunAction.mkfifoPipe,
     RunAction.statPrompt, RunAction.spawnCat, RunAction.spawnClaude,
     RunAction.spawnPipeReader]
    ++ envTimeoutCheck opts.timeoutMinutes envTimeout

/-- The string is a malformed numeric option: `parseInt` yields `NaN` or a
non-positive value. -/
def badNumeric (s : String) : Bool :=
  match jsParseInt s with
  | none => true
  | some v => decide (v ≤ 0)

/-- Every thrown configuration error in the action list occurs strictly before
every subprocess spawn. -/
def errorsPrecedeSpawns (l : List RunAction) : Prop :=
  ∀ (i j : Fin l.length), isConfigThrow (l.get i) = true → isSpawn (l.get j) = true →
    (i : Nat) < (j : Nat)

/-! ### Claim C8 -/

/-- Claim C8: a truthy `maxTurns` option that parses to a non-positive integer
or does not parse at all makes `prepareRunConfig` throw, with a message
containing the offending value, and the run's action sequence consists of that
throw alone — no subprocess is spawned. -/
theorem claim8_bad_max_turns (promptPath : String) (gitlabCiMode : Option String)
    (opts : ClaudeOptions) (s : String) (hset : opts.maxTurns = some s)
    (hne : jsTruthy (some s) = true) (hbad : badNumeric s = true) :
    prepareRunConfig promptPath gitlabCiMode opts
      = Except.error ("maxTurns must be a positive number, got: " ++ s)
    ∧ ∀ envTimeout, runClaudeGitLabActions promptPath gitlabCiMode envTimeout opts
      = [RunAction.throwErr ("maxTurns must be a positive number, got: " ++ s)] := by
  have herr : prepareRunConfig promptPath gitlabCiMode opts
      = Except.error ("maxTurns must be a positive number, got: " ++ s) := by
    unfold prepareRunConfig checkMaxTurns
    rw [hset]
    simp only [hne, if_true, Option.getD_some]
    unfold badNumeric at hbad
    cases hp : jsParseInt s with
    | none => rfl
    | some v =>
      rw [hp] at hbad
      have hv : v ≤ 0 := of_decide_eq_true hbad
      simp [hv]
  refine ⟨herr, fun envTimeout => ?_⟩
  unfold runClaudeGitLabActions
  rw [herr]

/-- Options setting only `maxTurns`. -/
def maxTurnsOpts (s : String) : ClaudeOptions :=
  { noOpts with maxTurns := some s }

/-- Witness for claim C8 at the three offending values `"0"`, `"-3"`, `"abc"`. -/
theorem claim8_witness :
    prepareRunConfig "prompt.txt" none (maxTurnsOpts "0")
      = Except.error ("maxTurns must be a positive number, got: " ++ "0")
    ∧ prepareRunConfig "prompt.txt" none (maxTurnsOpts "-3")
      = Except.error ("maxTurns must be a positive number, got: " ++ "-3")
    ∧ prepareRunConfig "prompt.txt" none (maxTurnsOpts "abc")
      = Except.error ("maxTurns must be a positive number, got: " ++ "abc")
    ∧ runClaudeGitLabActions "prompt.txt" none (some "10") (maxTurnsOpts "abc")
      = [RunAction.throwErr ("maxTurns must be a positive number, got: " ++ "abc")] := by
  refine ⟨?_, ?_, ?_, ?_⟩
  · exact (claim8_bad_max_turns "prompt.txt" none (maxTurnsOpts "0") "0" (by rfl)
      (by decide) (by decide)).1
  · exact (claim8_bad_max_turns "prompt.txt" none (maxTurnsOpts "-3") "-3" (by rfl)
      (by decide) (by decide)).1
  · exact (claim8_bad_max_turns "prompt.txt" none (maxTurnsOpts "abc") "abc" (by rfl)
      (by decide) (by decide)).1
  · exact (claim8_bad_max_turns "prompt.txt" none (maxTurnsOpts "abc") "abc" (by rfl)
      (by decide) (by decide)).2 (some "10")

/-! ### Claim C4 -/

/-- Counterexample to claim C4 as stated: with no per-run timeout option and a
non-numeric `CLAUDE_TIMEOUT_MINUTES` environment override, the configuration
error is raised only after the prompt reader, the assistant and the pipe
reader have been spawned. -/
theorem claim4_counterexample :
    ¬ errorsPrecedeSpawns (runClaudeGitLabActions "prompt.txt" none (some "abc") noOpts) := by
  intro h
  have h74 := h ⟨7, by decide⟩ ⟨4, by decide⟩ (by decide) (by decide)
  simp at h74

/-- Claim C4 (amended): errors from the malformed numeric options themselves
(`maxTurns`, `timeoutMinutes`) are raised by `prepareRunConfig` before any
subprocess is spawned — the action sequence is the throw alone; but a
malformed `CLAUDE_TIMEOUT_MINUTES` environment-level override is only detected
after the three subprocesses have been spawned. -/
theorem claim4_amended :
    (∀ (promptPath : String) (gitlabCiMode envTimeout : Option String)
      (opts : ClaudeOptions) (m : String),
      prepareRunConfig promptPath gitlabCiMode opts = Except.error m →
      runClaudeGitLabActions promptPath gitlabCiMode envTimeout opts
        = [RunAction.throwErr m])
    ∧ (∀ (promptPath : String) (gitlabCiMode : Option String)
      (opts : ClaudeOptions) (s : String),
      (∃ c, prepareRunConfig promptPath gitlabCiMode opts = Except.ok c) →
      jsTruthy opts.timeoutMinutes = false →
      jsTruthy (some s) = true →
      badNumeric s = true →
      runClaudeGitLabActions promptPath gitlabCiMode (some s) opts
        = [RunAction.mkdirTemp, RunAction.unlinkPipe, RunAction.mkfifoPipe,
           RunAction.statPrompt, RunAction.spawnCat, RunAction.spawnClaude,
           RunAction.spawnPipeReader,
           RunAction.throwErr
             ("CLAUDE_TIMEOUT_MINUTES must be a positive number, got: " ++ s)]) := by
  constructor
  · intro promptPath gitlabCiMode envTimeout opts m herr
    unfold runClaudeGitLabActions
    rw [herr]
  · intro promptPath gitlabCiMode opts s hok htopt hstruthy hbad
    obtain ⟨c, hc⟩ := hok
    unfold runClaudeGitLabActions
    rw [hc]
    unfold envTimeoutCheck
    rw [htopt]
    simp only [Bool.false_eq_true, if_false, hstruthy, if_true, Option.getD_some]
    unfold badNumeric at hbad
    cases hp : jsParseInt s with
    | none => rfl
    | some v =>
      rw [hp] at hbad
      have hv : v ≤ 0 := of_decide_eq_true hbad
      simp [hv]

/-- Witness for claim C4 (amended): both halves at concrete inputs — a bad
`maxTurns` aborts with no spawned process, and a bad environment override
throws only after the three spawns. -/
theorem claim4_witness :
    runClaudeGitLabActions "prompt.txt" none (some "10") (maxTurnsOpts "0")
      = [RunAction.throwErr ("maxTurns must be a positive number, got: " ++ "0")]
    ∧ runClaudeGitLabActions "prompt.txt" none (some "abc") noOpts
      = [RunAction.mkdirTemp, RunAction.unlinkPipe, RunAction.mkfifoPipe,
         RunAction.statPrompt, RunAction.spawnCat, RunAction.spawnClaude,
         RunAction.spawnPipeReader,
         RunAction.throwErr
           ("CLAUDE_TIMEOUT_MINUTES must be a positive number, got: " ++ "abc")] := by
  constructor
  · exact claim4_amended.1 "prompt.txt" none (some "10") (maxTurnsOpts "0")
      ("maxTurns must be a positive number, got: " ++ "0") (by rfl)
  · exact claim4_amended.2 "prompt.txt" none noOpts "abc" ⟨_, by rfl⟩ (by decide)
      (by decide) (by decide)

/-! ## The stdout relay of `runClaudeGitLab`

Each captured chunk is split at newlines and iterated with its index.  A line
whose trim is empty is skipped entirely.  Otherwise the line is written —
pretty-printed when `JSON.parse` succeeds, verbatim when it throws — followed
by a newline exactly when the line is not the final one or the chunk ends with
a newline.  `JSON.parse` success and `JSON.stringify(parsed, null, 2)` are
external built-ins, modelled as abstract parameters `isJson` and `pretty`. -/

/-- What one kept line is written as: pretty-printed when it parses as JSON,
verbatim otherwise. -/
def relayEmit (isJson : String → Bool) (pretty : String → String) (l : String) : String :=
  if isJson l then pretty l else l

/-- The indexed `forEach` body over the split lines: `i` is the current index,
`n` the total number of lines, `ens` whether the chunk ends with a newline. -/
def relayGo (emit : String → String) (n : Nat) (ens : Bool) : Nat → List String → String
  | _, [] => ""
  | i, l :: rest =>
    (if isBlankStr l then ""
     else emit l ++ (if i < n - 1 || ens then "\n" else ""))
      ++ relayGo emit n ens (i + 1) rest

/-- The relay of one captured stdout chunk. -/
def relayChunk (isJson : String → Bool) (pretty : String → String) (text : String) :
    String :=
  relayGo (relayEmit isJson pretty) (strLines text).length (endsWithNL text) 0
    (strLines text)

/-- How a non-final line is relayed: dropped when whitespace-only, otherwise
emitted and newline-terminated. -/
def relayInitPiece (emit : String → String) (l : String) : String :=
  if isBlankStr l then "" else emit l ++ "\n"

/-- How the final line of a chunk is relayed: dropped when whitespace-only,
otherwise emitted, with a newline only when the chunk ended with one. -/
def relayLastPiece (emit : String → String) (ens : Bool) (l : String) : String :=
  if isBlankStr l then "" else emit l ++ (if ens then "\n" else "")

theorem string_append_empty (s : String) : s ++ "" = s := by
  cases s with
  | mk data =>
    show String.mk (data ++ []) = String.mk data
    rw [List.append_nil]

theorem relayGo_spec (emit : String → String) (ens : Bool) :
    ∀ (lines : List String) (i : Nat),
      relayGo emit (i + lines.length) ens i lines =
        concatAll (lines.dropLast.map (relayInitPiece emit))
          ++ (match lines.getLast? with
              | none => ""
              | some l => relayLastPiece emit ens l) := by
  intro lines
  induction lines with
  | nil => intro i; rfl
  | cons l rest ih =>
    intro i
    cases rest with
    | nil =>
      show (if isBlankStr l then ""
          else emit l ++ (if i < i + 1 - 1 || ens then "\n" else "")) ++ "" = _
      rw [string_append_empty]
      have hidx : decide (i < i + 1 - 1) = false := by simp
      rw [hidx]
      simp only [Bool.false_or]
      rfl
    | cons l' rest' =>
      show (if isBlankStr l then ""
          else emit l ++ (if i < i + (l' :: rest').length + 1 - 1 || ens then "\n" else ""))
          ++ relayGo emit (i + (l' :: rest').length + 1) ens (i + 1) (l' :: rest') = _
      have hidx : decide (i < i + (l' :: rest').length + 1 - 1) = true := by
        simp only [List.length_cons, decide_eq_true_eq]
        omega
      rw [hidx]
      simp only [Bool.true_or, if_true]
      have harg : i + (l' :: rest').length + 1 = (i + 1) + (l' :: rest').length := by
        omega
      rw [harg, ih (i + 1)]
      rw [show (l :: l' :: rest').dropLast = l :: (l' :: rest').dropLast from rfl]
      rw [show (l :: l' :: rest').getLast? = (l' :: rest').getLast? by
        cases rest' <;> rfl]
      rw [show concatAll ((l :: (l' :: rest').dropLast).map (relayInitPiece emit))
          = relayInitPiece emit l
            ++ concatAll ((l' :: rest').dropLast.map (relayInitPiece emit)) from rfl]
      rw [String.append_assoc]
      rfl

/-! ### Claim C5 -/

/-- Counterexample to claim C5 as stated: a chunk `"a\n\nb"` of three lines
(none of which parses as JSON) is relayed as `"a\nb"` — the whitespace-only
middle line is dropped entirely, so the original line boundaries are not
preserved. -/
theorem claim5_counterexample :
    relayChunk (fun _ => false) (fun s => s) "a\n\nb" = "a\nb"
    ∧ (strLines "a\n\nb").length = 3
    ∧ (strLines "a\nb").length = 2 := by
  refine ⟨?_, by decide, by decide⟩
  decide

/-- Claim C5 (amended): in every relayed chunk, whitespace-only lines (blank
lines included) are dropped entirely — their boundaries are not preserved —
while every other line is re-emitted, pretty-printed when it parses as JSON and
verbatim otherwise, followed by a newline except for a final line of a chunk
that does not end with a newline, which is not given one. -/
theorem claim5_amended (isJson : String → Bool) (pretty : String → String)
    (text : String) :
    relayChunk isJson pretty text =
      concatAll ((strLines text).dropLast.map (relayInitPiece (relayEmit isJson pretty)))
        ++ (match (strLines text).getLast? with
            | none => ""
            | some l => relayLastPiece (relayEmit isJson pretty) (endsWithNL text) l) := by
  unfold relayChunk
  rw [show (strLines text).length = 0 + (strLines text).length from (Nat.zero_add _).symm]
  exact relayGo_spec (relayEmit isJson pretty) (endsWithNL text) (strLines text) 0

end ClaudeGitLab
